import Mathlib

/-!
Verification of the Sapheneia trading strategy engine
(`src/trading/services/trading.py`, class `TradingStrategy`).

The engine is embedded shallowly over `ℚ` (exact arithmetic; the Python code
uses IEEE doubles, but every claim under study is about the exact algebra of
the code). Python exceptions (`InvalidParametersError`, `IndexError`) are
modelled by `Except Err`. The square root hidden inside `np.std` is irrational
in general, so the embedding takes an arbitrary function `sqrtFn : ℚ → ℚ` and
applies it to the (rational) population variance; every theorem below holds
for every such function. String `reason` fields, logging, and the
string-vs-enum normalisation of tag fields (modelled by the corresponding
inductive types) are presentation-level and not modelled.
-/

namespace Sapheneia

/-- Trade action, as produced by the signal generators and the executor. -/
inductive Action
  | buy
  | sell
  | hold
deriving DecidableEq

/-- Errors raised by the engine: `InvalidParametersError` and a Python
`IndexError` (reachable in `_calculate_atr` when the OHLC windows are
misaligned). -/
inductive Err
  | invalidParameters
  | indexError
deriving DecidableEq

/-- `ThresholdType` enum from the source (`RETURN` is the legacy member,
named `ret` here because `return` is a Lean keyword). -/
inductive ThresholdType
  | absolute
  | percentage
  | stdDev
  | atr
  | ret
deriving DecidableEq

/-- `PositionSizing` enum from the source. -/
inductive PositionSizing
  | fixed
  | proportional
  | normalized
deriving DecidableEq

/-- `WhichHistory` enum from the source (`open` is a Lean keyword, hence
`open_`). -/
inductive WhichHistory
  | open_
  | high
  | low
  | close
deriving DecidableEq

/-- Intermediate signal `{action, size}` (the `reason` string is dropped). -/
structure Signal where
  action : Action
  size : ℚ
deriving DecidableEq

/-- Result dictionary of `execute_trading_signal` (minus `reason`). -/
structure ExecutionResult where
  action : Action
  size : ℚ
  value : ℚ
  available_cash : ℚ
  position_after : ℚ
  stopped : Bool
deriving DecidableEq

/-- Python `a[-w:]` for `w ≥ 0`: the whole list when `w = 0` (Python's
`a[-0:]` is `a[0:]`), otherwise the last `min w a.length` elements. -/
def lastWindow (l : List ℚ) (w : ℕ) : List ℚ :=
  if w = 0 then l else l.drop (l.length - w)

/-- `np.mean` over a rational list (`0` on the empty list, where numpy
would produce NaN; no claim depends on that corner). -/
def listMean (l : List ℚ) : ℚ :=
  l.sum / l.length

/-- Population variance, so that `np.std l = sqrt (listVariance l)`. -/
def listVariance (l : List ℚ) : ℚ :=
  listMean (l.map fun x => (x - listMean l) ^ 2)

/-- `TradingStrategy._calculate_returns`: simple returns
`np.diff(ts) / ts[:-1]`. -/
def calculate_returns (ts : List ℚ) : List ℚ :=
  if ts.length < 2 then []
  else List.zipWith (fun prev next => (next - prev) / prev) ts ts.tail

/-- `TradingStrategy._get_history_array`: select the series named by
`which_history` (the unreachable string-default branch collapses into the
`close` case of the enum). -/
def get_history_array (openH highH lowH closeH : Option (List ℚ)) :
    WhichHistory → Option (List ℚ)
  | .open_ => openH
  | .high => highH
  | .low => lowH
  | .close => closeH

/-- The body of the `for i in range(1, len(high))` loop of
`TradingStrategy._calculate_atr`, over an explicit index list. Out-of-range
access to the `low`/`close` windows is Python's `IndexError`. -/
def true_ranges_aux (hw lw cw : List ℚ) : List ℕ → Except Err (List ℚ)
  | [] => .ok []
  | i :: is =>
    match hw[i]?, lw[i]?, cw[i - 1]? with
    | some hi, some li, some ci =>
      match true_ranges_aux hw lw cw is with
      | .ok rest => .ok (max (hi - li) (max |hi - ci| |li - ci|) :: rest)
      | .error e => .error e
    | _, _, _ => .error .indexError

/-- True-Range list of `TradingStrategy._calculate_atr`
(`for i in range(1, len(high))`). -/
def true_ranges (hw lw cw : List ℚ) : Except Err (List ℚ) :=
  true_ranges_aux hw lw cw (List.range' 1 (hw.length - 1))

/-- `TradingStrategy._calculate_atr`. The `open` series is accepted but
unused, exactly as in the source. Insufficient history yields `0.0`; an
empty True-Range list yields `0.0`; otherwise the mean of the True Ranges. -/
def calculate_atr (_openH highH lowH closeH : List ℚ)
    (window minLen : ℕ) : Except Err ℚ :=
  if highH.length < minLen ∨ lowH.length < minLen ∨ closeH.length < minLen then
    .ok 0
  else
    match true_ranges (lastWindow highH window) (lastWindow lowH window)
        (lastWindow closeH window) with
    | .error e => .error e
    | .ok trs => if trs.length = 0 then .ok 0 else .ok (listMean trs)

/-- `TradingStrategy._calculate_threshold`. The final `else` branch of the
source (reached by the legacy `"return"` member, which passes the
`valid_threshold_types` check upstream) defaults to absolute. -/
def calculate_threshold (ttype : ThresholdType) (threshold_value : ℚ)
    (openH highH lowH closeH : Option (List ℚ)) (which : WhichHistory)
    (window minLen : ℕ) (current_price : ℚ) (sqrtFn : ℚ → ℚ) :
    Except Err ℚ :=
  match ttype with
  | .absolute => .ok threshold_value
  | .percentage => .ok (current_price * (threshold_value / 100))
  | .stdDev =>
    match get_history_array openH highH lowH closeH which with
    | none => .ok threshold_value
    | some arr =>
      if arr.length < minLen then .ok threshold_value
      else .ok (threshold_value * sqrtFn (listVariance (lastWindow arr window)))
  | .atr =>
    match openH, highH, lowH, closeH with
    | some o, some h, some l, some c =>
      match calculate_atr o h l c window minLen with
      | .error e => .error e
      | .ok a => .ok (threshold_value * a)
    | _, _, _, _ => .ok threshold_value
  | .ret => .ok threshold_value

/-- `TradingStrategy.calculate_threshold_signal`. `current_position` is
extracted but unused by the source and is omitted here; the
`valid_threshold_types` membership check is type-level. -/
def calculate_threshold_signal (forecast_price current_price : ℚ)
    (ttype : ThresholdType) (threshold_value execution_size : ℚ)
    (which : WhichHistory) (window minLen : ℕ)
    (openH highH lowH closeH : Option (List ℚ)) (sqrtFn : ℚ → ℚ) :
    Except Err Signal :=
  if threshold_value < 0 then .error .invalidParameters
  else if execution_size ≤ 0 then .error .invalidParameters
  else
    -- ATR with any OHLC series missing falls back to the absolute type.
    let ttype' :=
      if ttype = .atr ∧
          (openH = none ∨ highH = none ∨ lowH = none ∨ closeH = none) then
        ThresholdType.absolute
      else ttype
    match calculate_threshold ttype' threshold_value openH highH lowH closeH
        which window minLen current_price sqrtFn with
    | .error e => .error e
    | .ok threshold =>
      let price_diff := forecast_price - current_price
      let signal_magnitude := |price_diff|
      if signal_magnitude < threshold then .ok ⟨.hold, 0⟩
      else if price_diff > 0 then .ok ⟨.buy, execution_size⟩
      else .ok ⟨.sell, execution_size⟩

/-- Constraint check of `calculate_return_signal`: both bounds present with
`max < min` is rejected. -/
def badConstraints (maxP minP : Option ℚ) : Bool :=
  match maxP, minP with
  | some mx, some mn => mx < mn
  | _, _ => false

/-- Position-size block of `TradingStrategy.calculate_return_signal`
(fixed / proportional / normalized, before the min/max clamp). -/
def return_position_size (expected_return execution_size : ℚ)
    (sizing : PositionSizing) (which : WhichHistory) (window minLen : ℕ)
    (openH highH lowH closeH : Option (List ℚ)) (sqrtFn : ℚ → ℚ) : ℚ :=
  match sizing with
  | .fixed => execution_size
  | .proportional => execution_size * |expected_return| * 100
  | .normalized =>
    match get_history_array openH highH lowH closeH which with
    | none => execution_size
    | some arr =>
      if arr.length < minLen then execution_size
      else
        let ret_std := sqrtFn (listVariance (calculate_returns (lastWindow arr window)))
        if ret_std = 0 then execution_size
        else execution_size * (|expected_return| / ret_std)

/-- The `max_position_size` / `min_position_size` clamp applied at the end
of the return and quantile generators. -/
def apply_constraints (s : ℚ) (maxP minP : Option ℚ) : ℚ :=
  let s1 := match maxP with | some m => min s m | none => s
  match minP with | some m => max s1 m | none => s1

/-- `TradingStrategy.calculate_return_signal`. `current_position` is
extracted but unused by the source and is omitted; the
`valid_position_sizing` membership check is type-level. -/
def calculate_return_signal (forecast_price current_price : ℚ)
    (sizing : PositionSizing) (threshold_value execution_size : ℚ)
    (maxP minP : Option ℚ) (which : WhichHistory) (window minLen : ℕ)
    (openH highH lowH closeH : Option (List ℚ)) (sqrtFn : ℚ → ℚ) :
    Except Err Signal :=
  if threshold_value < 0 then .error .invalidParameters
  else if execution_size ≤ 0 then .error .invalidParameters
  else if badConstraints maxP minP then .error .invalidParameters
  else
    let expected_return := (forecast_price - current_price) / current_price
    if expected_return > threshold_value then
      .ok ⟨.buy, apply_constraints
        (return_position_size expected_return execution_size sizing which
          window minLen openH highH lowH closeH sqrtFn) maxP minP⟩
    else if expected_return < -threshold_value then
      .ok ⟨.sell, apply_constraints
        (return_position_size expected_return execution_size sizing which
          window minLen openH highH lowH closeH sqrtFn) maxP minP⟩
    else .ok ⟨.hold, 0⟩

/-- One entry of the `quantile_signals` mapping:
`{range: [rmin, rmax], signal, multiplier}`. Structural malformation
(missing keys, non-list range) is unrepresentable at this type; the numeric
validity checks of the source are in `validEntries`. -/
structure QuantileEntry where
  rmin : ℚ
  rmax : ℚ
  signal : Action
  multiplier : ℚ
deriving DecidableEq

/-- The per-entry validation loop of `calculate_quantile_signal`: every
entry must satisfy `0 ≤ min < max ≤ 100` and `0 ≤ multiplier ≤ 1`. -/
def validEntries (entries : List QuantileEntry) : Bool :=
  entries.all fun e =>
    decide (0 ≤ e.rmin) && decide (e.rmax ≤ 100) && decide (e.rmin < e.rmax) &&
    decide (0 ≤ e.multiplier) && decide (e.multiplier ≤ 1)

/-- The percentile computation of `calculate_quantile_signal` (line 751):
`np.sum(recent_history < forecast_price) / len(recent_history) * 100`. -/
def quantile_percentile (recent : List ℚ) (forecast_price : ℚ) : ℚ :=
  ((recent.countP fun x => decide (x < forecast_price)) : ℚ) / recent.length * 100

/-- `TradingStrategy.calculate_quantile_signal`. `quantile_signals` is the
entry list in Python dict insertion order; `window_history` is `none` when
absent. `execution_size` is extracted but unused by the source and omitted;
the `which_history` membership check is type-level. -/
def calculate_quantile_signal (forecast_price current_price current_position
    available_cash : ℚ) (which : WhichHistory) (window_history : Option ℕ)
    (entries : Option (List QuantileEntry)) (sizing : PositionSizing)
    (maxP minP : Option ℚ) (minLen : ℕ)
    (openH highH lowH closeH : Option (List ℚ)) (sqrtFn : ℚ → ℚ) :
    Except Err Signal :=
  match window_history with
  | none => .error .invalidParameters
  | some w =>
    if w = 0 then .error .invalidParameters
    else match entries with
    | none => .error .invalidParameters
    | some es =>
      if ¬ validEntries es then .error .invalidParameters
      else match openH, highH, lowH, closeH with
      | some o, some h, some l, some c =>
        match get_history_array (some o) (some h) (some l) (some c) which with
        | none => .ok ⟨.hold, 0⟩  -- unreachable: presence was just checked
        | some arr =>
          let recent := lastWindow arr w
          if recent.length < minLen then .ok ⟨.hold, 0⟩
          else
            let percentile := quantile_percentile recent forecast_price
            match es.find? fun e =>
                decide (e.rmin ≤ percentile) && decide (percentile < e.rmax) with
            | none => .ok ⟨.hold, 0⟩
            | some m =>
              match m.signal with
              | .buy =>
                let base := available_cash / current_price * m.multiplier
                let base :=
                  if sizing = .normalized then
                    let ret_std := sqrtFn (listVariance (calculate_returns recent))
                    if ret_std > 0 then
                      let expected_return :=
                        (forecast_price - current_price) / current_price
                      base * (|expected_return| / ret_std)
                    else base
                  else base
                .ok ⟨.buy, apply_constraints base maxP minP⟩
              | .sell =>
                .ok ⟨.sell, apply_constraints (current_position * m.multiplier) maxP minP⟩
              | .hold => .ok ⟨.hold, 0⟩
      | _, _, _, _ => .error .invalidParameters

/-- The short-circuit result of `execute_trading_signal` when no capital
remains: `hold, size 0, value 0, cash 0, position 0, stopped`. -/
def stopResult : ExecutionResult :=
  ⟨.hold, 0, 0, 0, 0, true⟩

/-- `TradingStrategy.execute_trading_signal`. The signal generator's outcome
(`generate_trading_signal(params)`, which may itself raise) enters as
`gen : Except Err Signal`; in the stopped short-circuit the function returns
before `gen` is consumed, which models "no signal generator is invoked".
The leading `if`s are `_validate_common_params` (in source order); the
`isinstance` checks are type-level. The dead `else: return result` branch of
the source (action other than buy/sell/hold) is unrepresentable. -/
def execute_trading_signal (forecast_price current_price current_position
    available_cash initial_capital : ℚ) (gen : Except Err Signal) :
    Except Err ExecutionResult :=
  if forecast_price ≤ 0 then .error .invalidParameters
  else if current_price ≤ 0 then .error .invalidParameters
  else if current_position < 0 then .error .invalidParameters
  else if available_cash < 0 then .error .invalidParameters
  else if initial_capital ≤ 0 then .error .invalidParameters
  else if available_cash ≤ 0 ∧ current_position ≤ 0 then .ok stopResult
  else
    match gen with
    | .error e => .error e
    | .ok signal =>
      match signal.action with
      | .hold => .ok ⟨.hold, 0, 0, available_cash, current_position, false⟩
      | .buy =>
        let max_affordable := available_cash / current_price
        let actual_size := min signal.size max_affordable
        if actual_size ≤ 0 then
          .ok ⟨.hold, 0, 0, available_cash, current_position, false⟩
        else
          let trade_value := actual_size * current_price
          let new_cash := available_cash - trade_value
          let new_position := current_position + actual_size
          .ok ⟨.buy, actual_size, trade_value, new_cash, new_position,
            decide (new_cash ≤ 0 ∧ new_position ≤ 0)⟩
      | .sell =>
        let actual_size := min signal.size current_position
        if actual_size ≤ 0 then
          .ok ⟨.hold, 0, 0, available_cash, current_position, false⟩
        else
          let trade_value := actual_size * current_price
          let new_cash := available_cash + trade_value
          let new_position := current_position - actual_size
          .ok ⟨.sell, actual_size, trade_value, new_cash, new_position,
            decide (new_cash ≤ 0 ∧ new_position ≤ 0)⟩

/-- `TradingStrategy.get_portfolio_value`: cash plus position value. -/
def get_portfolio_value (current_position current_price available_cash : ℚ) : ℚ :=
  available_cash + current_position * current_price

/-- Exhaustive shape analysis of a successful `execute_trading_signal` call:
either the stopped short-circuit fired, or the call degenerated to a hold
(pass-through state), or a buy/sell actually executed with a positive
clamped size. Shared backbone for the execution-engine claims. -/
theorem execute_ok_characterization
    (f p pos cash init : ℚ) (gen : Except Err Signal) (r : ExecutionResult)
    (hr : execute_trading_signal f p pos cash init gen = .ok r) :
    (cash ≤ 0 ∧ pos ≤ 0 ∧ r = stopResult) ∨
    (¬(cash ≤ 0 ∧ pos ≤ 0) ∧ r = ⟨.hold, 0, 0, cash, pos, false⟩) ∨
    (¬(cash ≤ 0 ∧ pos ≤ 0) ∧ ∃ a : ℚ, 0 < a ∧ a ≤ cash / p ∧
        r = ⟨.buy, a, a * p, cash - a * p, pos + a,
              decide (cash - a * p ≤ 0 ∧ pos + a ≤ 0)⟩) ∨
    (¬(cash ≤ 0 ∧ pos ≤ 0) ∧ ∃ a : ℚ, 0 < a ∧ a ≤ pos ∧
        r = ⟨.sell, a, a * p, cash + a * p, pos - a,
              decide (cash + a * p ≤ 0 ∧ pos - a ≤ 0)⟩) := by
  unfold execute_trading_signal at hr
  split at hr; · exact absurd hr (by simp)
  split at hr; · exact absurd hr (by simp)
  split at hr; · exact absurd hr (by simp)
  split at hr; · exact absurd hr (by simp)
  split at hr; · exact absurd hr (by simp)
  split at hr
  case isTrue hguard =>
    simp only [Except.ok.injEq] at hr
    exact Or.inl ⟨hguard.1, hguard.2, hr.symm⟩
  case isFalse hguard =>
    cases gen with
    | error e => exact absurd hr (by simp)
    | ok s =>
      obtain ⟨act, size⟩ := s
      cases act with
      | hold =>
        simp only [Except.ok.injEq] at hr
        exact Or.inr (Or.inl ⟨hguard, hr.symm⟩)
      | buy =>
        simp only at hr
        split at hr
        case isTrue => -- degraded to hold
          simp only [Except.ok.injEq] at hr
          exact Or.inr (Or.inl ⟨hguard, hr.symm⟩)
        case isFalse hpos' =>
          simp only [Except.ok.injEq] at hr
          refine Or.inr (Or.inr (Or.inl ⟨hguard, min size (cash / p), ?_, ?_, hr.symm⟩))
          · exact lt_of_not_le hpos'
          · exact min_le_right _ _
      | sell =>
        simp only at hr
        split at hr
        case isTrue =>
          simp only [Except.ok.injEq] at hr
          exact Or.inr (Or.inl ⟨hguard, hr.symm⟩)
        case isFalse hpos' =>
          simp only [Except.ok.injEq] at hr
          refine Or.inr (Or.inr (Or.inr ⟨hguard, min size pos, ?_, ?_, hr.symm⟩))
          · exact lt_of_not_le hpos'
          · exact min_le_right _ _

/-- C1: for every `ExecutionResult` returned by `execute_trading_signal` on
validated inputs (`current_price > 0`, `current_position ≥ 0`,
`available_cash ≥ 0`): `position_after ≥ 0` and `available_cash ≥ 0`;
`value = size * current_price` whenever the action is buy or sell; an
executed buy satisfies `size * current_price ≤` pre-trade cash; an executed
sell satisfies `size ≤` pre-trade position. -/
theorem C1_execution_invariants
    (f p pos cash init : ℚ) (gen : Except Err Signal) (r : ExecutionResult)
    (hp : 0 < p) (hpos : 0 ≤ pos) (hcash : 0 ≤ cash)
    (hr : execute_trading_signal f p pos cash init gen = .ok r) :
    0 ≤ r.position_after ∧ 0 ≤ r.available_cash ∧
    (r.action = .buy ∨ r.action = .sell → r.value = r.size * p) ∧
    (r.action = .buy → r.size * p ≤ cash) ∧
    (r.action = .sell → r.size ≤ pos) := by
  rcases execute_ok_characterization f p pos cash init gen r hr with
    ⟨-, -, rfl⟩ | ⟨-, rfl⟩ | ⟨-, a, ha, hle, rfl⟩ | ⟨-, a, ha, hle, rfl⟩
  · refine ⟨le_refl 0, le_refl 0, ?_, ?_, ?_⟩
    · rintro (h | h) <;> exact Action.noConfusion h
    · intro h; exact Action.noConfusion h
    · intro h; exact Action.noConfusion h
  · refine ⟨hpos, hcash, ?_, ?_, ?_⟩
    · rintro (h | h) <;> exact Action.noConfusion h
    · intro h; exact Action.noConfusion h
    · intro h; exact Action.noConfusion h
  · -- executed buy
    have hap : a * p ≤ cash := by
      have h := mul_le_mul_of_nonneg_right hle hp.le
      rwa [div_mul_cancel₀ cash (ne_of_gt hp)] at h
    refine ⟨?_, ?_, fun _ => rfl, fun _ => hap, ?_⟩
    · show 0 ≤ pos + a; linarith
    · show 0 ≤ cash - a * p; linarith
    · intro h; exact Action.noConfusion h
  · -- executed sell
    have hap : 0 < a * p := mul_pos ha hp
    refine ⟨?_, ?_, fun _ => rfl, ?_, fun _ => hle⟩
    · show 0 ≤ pos - a; linarith
    · show 0 ≤ cash + a * p; linarith
    · intro h; exact Action.noConfusion h

/-- Witness for C1: a concrete executed buy (`forecast 105`, `price 100`,
`position 0`, `cash 1000`, desired size 5) with the hypotheses discharged. -/
theorem C1_execution_invariants_witness :
    (0:ℚ) < 100 ∧ (0:ℚ) ≤ 0 ∧ (0:ℚ) ≤ 1000 ∧
    0 ≤ (⟨.buy, 5, 500, 500, 5, false⟩ : ExecutionResult).available_cash :=
  ⟨by norm_num, le_refl 0, by norm_num,
    (C1_execution_invariants 105 100 0 1000 1000 (.ok ⟨.buy, 5⟩)
      ⟨.buy, 5, 500, 500, 5, false⟩ (by norm_num) (le_refl 0) (by norm_num)
      (by simp only [execute_trading_signal]; norm_num)).2.1⟩

/-- C2: the returned `stopped` flag is true iff the post-trade cash and
position are both `≤ 0`; and the stopped state is absorbing: on validated
inputs with `available_cash ≤ 0` and `current_position ≤ 0` the call returns
hold with size 0 and `stopped = true` without consuming the signal
generator's outcome (the result is the same for every generator). -/
theorem C2_stopped_iff_and_absorbing
    (f p pos cash init : ℚ) (gen : Except Err Signal) :
    (∀ r : ExecutionResult, 0 < p → 0 ≤ pos → 0 ≤ cash →
        execute_trading_signal f p pos cash init gen = .ok r →
        (r.stopped = true ↔ r.available_cash ≤ 0 ∧ r.position_after ≤ 0)) ∧
    (0 < f → 0 < p → 0 ≤ pos → 0 ≤ cash → 0 < init → cash ≤ 0 → pos ≤ 0 →
        ∀ gen' : Except Err Signal,
          execute_trading_signal f p pos cash init gen' = .ok stopResult) := by
  constructor
  · intro r hp hpos hcash hr
    rcases execute_ok_characterization f p pos cash init gen r hr with
      ⟨-, -, rfl⟩ | ⟨hg, rfl⟩ | ⟨-, a, ha, hle, rfl⟩ | ⟨-, a, ha, hle, rfl⟩
    · simp [stopResult]
    · simpa using hg
    · exact decide_eq_true_iff
    · exact decide_eq_true_iff
  · intro hf hp hpos hcash hinit hcle hple gen'
    unfold execute_trading_signal
    rw [if_neg (not_le.mpr hf), if_neg (not_le.mpr hp), if_neg (not_lt.mpr hpos),
        if_neg (not_lt.mpr hcash), if_neg (not_le.mpr hinit),
        if_pos ⟨hcle, hple⟩]

/-- Witness for C2: with `cash = 0`, `position = 0` and a buy-signal
generator, the call returns the absorbing stop result. -/
theorem C2_stopped_iff_and_absorbing_witness :
    execute_trading_signal 105 100 0 0 1000 (.ok ⟨.buy, 5⟩) = .ok stopResult :=
  (C2_stopped_iff_and_absorbing 105 100 0 0 1000 (.ok ⟨.sell, 3⟩)).2
    (by norm_num) (by norm_num) (le_refl 0) (le_refl 0) (by norm_num)
    (le_refl 0) (le_refl 0) (.ok ⟨.buy, 5⟩)

/-- C9: results whose action is buy or sell have `stopped = false` — an
executed buy leaves `position_after = position + size > 0` and an executed
sell leaves `available_cash = cash + value > 0`, so the post-trade stop
condition is unreachable after a trade; and every stopped result is a
hold. -/
theorem C9_trades_never_stopped
    (f p pos cash init : ℚ) (gen : Except Err Signal) (r : ExecutionResult)
    (hp : 0 < p) (hpos : 0 ≤ pos) (hcash : 0 ≤ cash)
    (hr : execute_trading_signal f p pos cash init gen = .ok r) :
    (r.action = .buy → r.position_after = pos + r.size ∧ 0 < r.position_after) ∧
    (r.action = .sell → r.available_cash = cash + r.value ∧ 0 < r.available_cash) ∧
    (r.action = .buy ∨ r.action = .sell → r.stopped = false) ∧
    (r.stopped = true → r.action = .hold) := by
  rcases execute_ok_characterization f p pos cash init gen r hr with
    ⟨-, -, rfl⟩ | ⟨-, rfl⟩ | ⟨-, a, ha, hle, rfl⟩ | ⟨-, a, ha, hle, rfl⟩
  · refine ⟨?_, ?_, ?_, fun _ => rfl⟩
    · intro h; exact Action.noConfusion h
    · intro h; exact Action.noConfusion h
    · rintro (h | h) <;> exact Action.noConfusion h
  · refine ⟨?_, ?_, ?_, fun _ => rfl⟩
    · intro h; exact Action.noConfusion h
    · intro h; exact Action.noConfusion h
    · rintro (h | h) <;> exact Action.noConfusion h
  · -- executed buy: position_after = pos + a > 0
    have hpa : 0 < pos + a := by linarith
    have hnot : ¬(cash - a * p ≤ 0 ∧ pos + a ≤ 0) := fun h => absurd h.2 (not_le.mpr hpa)
    refine ⟨fun _ => ⟨rfl, hpa⟩, ?_, fun _ => decide_eq_false hnot, ?_⟩
    · intro h; exact Action.noConfusion h
    · intro h
      exact absurd (of_decide_eq_true h).2 (not_le.mpr hpa)
  · -- executed sell: available_cash = cash + a*p > 0
    have hca : 0 < cash + a * p := by nlinarith
    have hnot : ¬(cash + a * p ≤ 0 ∧ pos - a ≤ 0) := fun h => absurd h.1 (not_le.mpr hca)
    refine ⟨?_, fun _ => ⟨rfl, hca⟩, fun _ => decide_eq_false hnot, ?_⟩
    · intro h; exact Action.noConfusion h
    · intro h
      exact absurd (of_decide_eq_true h).1 (not_le.mpr hca)

/-- Witness for C9: the concrete executed buy of the C1 scenario is not
stopped. -/
theorem C9_trades_never_stopped_witness :
    (⟨.buy, 5, 500, 500, 5, false⟩ : ExecutionResult).stopped = false :=
  (C9_trades_never_stopped 105 100 0 1000 1000 (.ok ⟨.buy, 5⟩)
    ⟨.buy, 5, 500, 500, 5, false⟩ (by norm_num) (le_refl 0) (by norm_num)
    (by simp only [execute_trading_signal]; norm_num)).2.2.1 (Or.inl rfl)

/-- C10: every successful call conserves portfolio value at the current
price — `get_portfolio_value` of the post-trade state equals
`get_portfolio_value` of the pre-trade state — and hold results leave cash
and position unchanged. -/
theorem C10_portfolio_value_conserved
    (f p pos cash init : ℚ) (gen : Except Err Signal) (r : ExecutionResult)
    (hp : 0 < p) (hpos : 0 ≤ pos) (hcash : 0 ≤ cash)
    (hr : execute_trading_signal f p pos cash init gen = .ok r) :
    get_portfolio_value r.position_after p r.available_cash
      = get_portfolio_value pos p cash ∧
    (r.action = .hold → r.available_cash = cash ∧ r.position_after = pos) := by
  rcases execute_ok_characterization f p pos cash init gen r hr with
    ⟨h1, h2, rfl⟩ | ⟨-, rfl⟩ | ⟨-, a, ha, hle, rfl⟩ | ⟨-, a, ha, hle, rfl⟩
  · have hc0 : cash = 0 := le_antisymm h1 hcash
    have hp0 : pos = 0 := le_antisymm h2 hpos
    subst hc0; subst hp0
    exact ⟨by show (0:ℚ) + 0 * p = 0 + 0 * p; ring, fun _ => ⟨rfl, rfl⟩⟩
  · exact ⟨rfl, fun _ => ⟨rfl, rfl⟩⟩
  · refine ⟨?_, ?_⟩
    · show (cash - a * p) + (pos + a) * p = cash + pos * p; ring
    · intro h; exact Action.noConfusion h
  · refine ⟨?_, ?_⟩
    · show (cash + a * p) + (pos - a) * p = cash + pos * p; ring
    · intro h; exact Action.noConfusion h

/-- Witness for C10: value conservation at the concrete executed buy of the
C1 scenario (`500 + 5·100 = 1000 + 0·100`). -/
theorem C10_portfolio_value_conserved_witness :
    get_portfolio_value (⟨.buy, 5, 500, 500, 5, false⟩ : ExecutionResult).position_after
        100 (⟨.buy, 5, 500, 500, 5, false⟩ : ExecutionResult).available_cash
      = get_portfolio_value 0 100 1000 :=
  (C10_portfolio_value_conserved 105 100 0 1000 1000 (.ok ⟨.buy, 5⟩)
    ⟨.buy, 5, 500, 500, 5, false⟩ (by norm_num) (le_refl 0) (by norm_num)
    (by simp only [execute_trading_signal]; norm_num)).1

/-- C3 counterexample: with close history `[1,2,3]`, `window_history = 5`
and forecast 4, the engine computes percentile `3/3·100 = 100` and returns
hold (no entry matches), while the claimed divisor `window_history` would
give `3/5·100 = 60`, which lies inside the `[50,70)` buy range. -/
theorem C3_percentile_divisor_counterexample :
    calculate_quantile_signal 4 1 0 10 .close (some 5)
        (some [⟨50, 70, .buy, 1⟩]) .fixed none none 2
        (some [1, 2, 3]) (some [1, 2, 3]) (some [1, 2, 3]) (some [1, 2, 3])
        (fun _ => 0) = .ok ⟨.hold, 0⟩ ∧
    quantile_percentile (lastWindow [1, 2, 3] 5) 4 = 100 ∧
    (((lastWindow [1, 2, 3] 5).countP fun x => decide (x < 4)) : ℚ) / 5 * 100 = 60 ∧
    (100 : ℚ) ≠ 60 := by
  refine ⟨?_, ?_, ?_, by norm_num⟩
  · simp only [calculate_quantile_signal, validEntries, quantile_percentile,
      lastWindow, get_history_array]
    norm_num [List.countP, List.countP.go, List.find?]
  · norm_num [quantile_percentile, lastWindow, List.countP, List.countP.go]
  · norm_num [lastWindow, List.countP, List.countP.go]

/-- C3 (amended): the percentile computed by `calculate_quantile_signal`
divides by the length of the recent window, `min window_history
(history length)` — not by `window_history` when the available history is
shorter than the window. -/
theorem C3_percentile_divisor (hist : List ℚ) (w : ℕ) (fp : ℚ) (hw : 1 ≤ w) :
    quantile_percentile (lastWindow hist w) fp
      = (((lastWindow hist w).countP fun x => decide (x < fp)) : ℚ)
          / (min w hist.length : ℕ) * 100 := by
  have hlen : (lastWindow hist w).length = min w hist.length := by
    unfold lastWindow
    rw [if_neg (by omega), List.length_drop]
    omega
  unfold quantile_percentile
  rw [hlen]

/-- Witness for C3 (amended): the divisor at history `[1,2,3]`, window 5 is
`min 5 3 = 3`. -/
theorem C3_percentile_divisor_witness :
    1 ≤ 5 ∧
    quantile_percentile (lastWindow [1, 2, 3] 5) 4
      = (((lastWindow [1, 2, 3] 5).countP fun x => decide (x < 4)) : ℚ)
          / (min 5 (List.length [(1:ℚ), 2, 3]) : ℕ) * 100 :=
  ⟨by norm_num, C3_percentile_divisor [1, 2, 3] 5 4 (by norm_num)⟩

/-- Close history for the C4 scenario: 20 ascending values from 90 to 109. -/
def histC4 : List ℚ :=
  [90, 91, 92, 93, 94, 95, 96, 97, 98, 99,
   100, 101, 102, 103, 104, 105, 106, 107, 108, 109]

/-- C4 counterexample: on the claimed scenario (20 ascending closes 90–109,
window 20, forecast 110, single entry `[95,100] → buy`), the engine returns
hold, not buy — percentile 100 falls outside the half-open range
`[95, 100)`. -/
theorem C4_quantile_scenario_counterexample :
    calculate_quantile_signal 110 100 0 10000 .close (some 20)
        (some [⟨95, 100, .buy, 1⟩]) .fixed none none 2
        (some histC4) (some histC4) (some histC4) (some histC4) (fun _ => 0)
      = .ok ⟨.hold, 0⟩ ∧ Action.hold ≠ Action.buy := by
  refine ⟨?_, by simp⟩
  simp only [calculate_quantile_signal, validEntries, quantile_percentile,
    lastWindow, histC4, get_history_array]
  norm_num [List.countP, List.countP.go, List.find?]

/-- C4 (amended): on that scenario the computed percentile is 100 and the
returned action is hold, because the first-match scan uses half-open ranges
`[min, max)` and no entry contains 100. -/
theorem C4_quantile_scenario :
    quantile_percentile (lastWindow histC4 20) 110 = 100 ∧
    calculate_quantile_signal 110 100 0 10000 .close (some 20)
        (some [⟨95, 100, .buy, 1⟩]) .fixed none none 2
        (some histC4) (some histC4) (some histC4) (some histC4) (fun _ => 0)
      = .ok ⟨.hold, 0⟩ := by
  constructor
  · norm_num [quantile_percentile, lastWindow, histC4, List.countP, List.countP.go]
  · simp only [calculate_quantile_signal, validEntries, quantile_percentile,
      lastWindow, histC4, get_history_array]
    norm_num [List.countP, List.countP.go, List.find?]

/-- C5 counterexample: all four OHLC series present with mismatched lengths
(close has 3 elements, the others 5) — the engine raises nothing and
executes a buy from the close series alone. -/
theorem C5_mismatched_lengths_counterexample :
    calculate_quantile_signal (5/2) 1 0 10 .close (some 3)
        (some [⟨0, 100, .buy, 1⟩]) .fixed none none 2
        (some [1, 1, 1, 1, 1]) (some [1, 1, 1, 1, 1]) (some [1, 1, 1, 1, 1])
        (some [1, 2, 3]) (fun _ => 0) = .ok ⟨.buy, 10⟩ ∧
    ∀ e : Err, Except.ok (⟨.buy, 10⟩ : Signal) ≠ .error e := by
  refine ⟨?_, fun e => by simp⟩
  simp only [calculate_quantile_signal, validEntries, quantile_percentile,
    lastWindow, get_history_array, apply_constraints]
  norm_num [List.countP, List.countP.go, List.find?]

/-- C5 (amended): the engine performs no equal-length check across the four
OHLC series; with all four present, the result depends only on the series
selected by `which_history` (the equal-length validation lives in the API
schema layer, outside the engine). -/
theorem C5_no_length_check (fp cp pos cash : ℚ) (which : WhichHistory)
    (wh : Option ℕ) (entries : Option (List QuantileEntry))
    (sizing : PositionSizing) (maxP minP : Option ℚ) (minLen : ℕ)
    (o h l c o' h' l' c' : List ℚ) (sqrtFn : ℚ → ℚ)
    (hsel : get_history_array (some o) (some h) (some l) (some c) which
      = get_history_array (some o') (some h') (some l') (some c') which) :
    calculate_quantile_signal fp cp pos cash which wh entries sizing maxP minP
        minLen (some o) (some h) (some l) (some c) sqrtFn
      = calculate_quantile_signal fp cp pos cash which wh entries sizing maxP
        minP minLen (some o') (some h') (some l') (some c') sqrtFn := by
  cases wh with
  | none => rfl
  | some w =>
    simp only [calculate_quantile_signal]
    by_cases hw : w = 0
    · rw [if_pos hw, if_pos hw]
    · rw [if_neg hw, if_neg hw]
      cases entries with
      | none => rfl
      | some es =>
        dsimp only
        by_cases hv : validEntries es = true
        · rw [if_neg (by simp [hv]), if_neg (by simp [hv]), hsel]
        · rw [if_pos (by simp [hv]), if_pos (by simp [hv])]

/-- Witness for C5 (amended): concrete lists with the close series shared
and the other three entirely different give identical results. -/
theorem C5_no_length_check_witness :
    calculate_quantile_signal (5/2) 1 0 10 .close (some 3)
        (some [⟨0, 100, .buy, 1⟩]) .fixed none none 2
        (some [1, 1, 1, 1, 1]) (some [1, 1, 1, 1, 1]) (some [1, 1, 1, 1, 1])
        (some [1, 2, 3]) (fun _ => 0)
      = calculate_quantile_signal (5/2) 1 0 10 .close (some 3)
        (some [⟨0, 100, .buy, 1⟩]) .fixed none none 2
        (some [7]) (some [8, 8]) (some [9, 9, 9, 9, 9, 9])
        (some [1, 2, 3]) (fun _ => 0) :=
  C5_no_length_check (5/2) 1 0 10 .close (some 3) (some [⟨0, 100, .buy, 1⟩])
    .fixed none none 2 [1, 1, 1, 1, 1] [1, 1, 1, 1, 1] [1, 1, 1, 1, 1]
    [1, 2, 3] [7] [8, 8] [9, 9, 9, 9, 9, 9] [1, 2, 3] (fun _ => 0) rfl

/-- The spec's ATR True-Range list, written from its formula:
`TR[i] = max(high[i]-low[i], |high[i]-close[i-1]|, |low[i]-close[i-1]|)` for
`i = 1 .. len(high)-1` over the already-windowed series (out-of-range
positions default to 0; never reached under the equal-length hypotheses of
the C6 theorem). -/
def atr_tr_list_spec (hw lw cw : List ℚ) : List ℚ :=
  (List.range' 1 (hw.length - 1)).map fun i =>
    max (hw.getD i 0 - lw.getD i 0)
      (max |hw.getD i 0 - cw.getD (i - 1) 0| |lw.getD i 0 - cw.getD (i - 1) 0|)

/-- When every index in `is` is in bounds for the three windows, the
True-Range loop succeeds and returns exactly the spec's TR values. -/
theorem true_ranges_aux_ok (hw lw cw : List ℚ) (is : List ℕ)
    (hbound : ∀ i ∈ is, i < hw.length ∧ i < lw.length ∧ i - 1 < cw.length) :
    true_ranges_aux hw lw cw is = .ok (is.map fun i =>
      max (hw.getD i 0 - lw.getD i 0)
        (max |hw.getD i 0 - cw.getD (i - 1) 0| |lw.getD i 0 - cw.getD (i - 1) 0|)) := by
  induction is with
  | nil => rfl
  | cons i is ih =>
    obtain ⟨h1, h2, h3⟩ := hbound i (List.mem_cons_self i is)
    have e1 : hw[i]? = some (hw.getD i 0) := by
      rw [List.getElem?_eq_getElem h1, List.getD_eq_getElem hw 0 h1]
    have e2 : lw[i]? = some (lw.getD i 0) := by
      rw [List.getElem?_eq_getElem h2, List.getD_eq_getElem lw 0 h2]
    have e3 : cw[i - 1]? = some (cw.getD (i - 1) 0) := by
      rw [List.getElem?_eq_getElem h3, List.getD_eq_getElem cw 0 h3]
    have ih' := ih fun j hj => hbound j (List.mem_cons_of_mem i hj)
    simp only [true_ranges_aux, e1, e2, e3, ih', List.map_cons]

/-- Length of a Python tail slice. -/
theorem lastWindow_length (lst : List ℚ) (w : ℕ) :
    (lastWindow lst w).length
      = if w = 0 then lst.length else lst.length - (lst.length - w) := by
  unfold lastWindow
  split <;> simp [List.length_drop]

/-- C6 (amended): for an ATR threshold request with all four OHLC series
present and of equal length: if the length is at least `min_history_length`
the threshold is `threshold_value` times the mean of the spec's True-Range
list over the trailing `window_history` window (the mean of the empty list
reading as 0 when the window has fewer than two points); if the length is
below `min_history_length` the ATR is 0 and the threshold is 0, not
`threshold_value`; and if any series is missing the fallback to absolute
semantics (threshold = `threshold_value`) does apply. -/
theorem C6_atr_threshold (openH highH lowH closeH : Option (List ℚ))
    (tv price : ℚ) (which : WhichHistory) (w minLen : ℕ) (sqrtFn : ℚ → ℚ) :
    (∀ o h l c : List ℚ, openH = some o → highH = some h → lowH = some l →
      closeH = some c → h.length = l.length → h.length = c.length →
      ((minLen ≤ h.length →
        calculate_threshold .atr tv openH highH lowH closeH which w minLen
            price sqrtFn
          = .ok (tv * listMean (atr_tr_list_spec (lastWindow h w)
              (lastWindow l w) (lastWindow c w)))) ∧
       (h.length < minLen →
        calculate_threshold .atr tv openH highH lowH closeH which w minLen
            price sqrtFn = .ok 0))) ∧
    (openH = none ∨ highH = none ∨ lowH = none ∨ closeH = none →
      calculate_threshold .atr tv openH highH lowH closeH which w minLen
          price sqrtFn = .ok tv) := by
  constructor
  · rintro o h l c rfl rfl rfl rfl hlen1 hlen2
    have hw1 : (lastWindow h w).length = (lastWindow l w).length := by
      rw [lastWindow_length, lastWindow_length, hlen1]
    have hw2 : (lastWindow h w).length = (lastWindow c w).length := by
      rw [lastWindow_length, lastWindow_length, hlen2]
    have hbound : ∀ i ∈ List.range' 1 ((lastWindow h w).length - 1),
        i < (lastWindow h w).length ∧ i < (lastWindow l w).length ∧
          i - 1 < (lastWindow c w).length := by
      intro i hi
      rw [List.mem_range'_1] at hi
      omega
    have htr : true_ranges (lastWindow h w) (lastWindow l w) (lastWindow c w)
        = .ok (atr_tr_list_spec (lastWindow h w) (lastWindow l w)
            (lastWindow c w)) := by
      unfold true_ranges atr_tr_list_spec
      exact true_ranges_aux_ok _ _ _ _ hbound
    constructor
    · intro hmin
      simp only [calculate_threshold, calculate_atr]
      rw [if_neg (by omega), htr]
      dsimp only
      by_cases hz : (atr_tr_list_spec (lastWindow h w) (lastWindow l w)
          (lastWindow c w)).length = 0
      · rw [if_pos hz]
        rw [List.length_eq_zero.mp hz]
        show Except.ok (tv * 0) = _
        norm_num [listMean]
      · rw [if_neg hz]
    · intro hmin
      simp only [calculate_threshold, calculate_atr]
      rw [if_pos (by omega)]
      show Except.ok (tv * 0) = _
      norm_num
  · intro hmiss
    rcases hmiss with rfl | rfl | rfl | rfl
    · rfl
    · cases openH <;> rfl
    · cases openH <;> cases highH <;> rfl
    · cases openH <;> cases highH <;> cases lowH <;> rfl

/-- C6 counterexample: all four series present with length 1 and
`min_history_length = 2`, `threshold_value = 7` — the code's ATR is 0, so
the threshold is 0 rather than the claimed fallback 7; consequently a price
difference of 3 (below the claimed threshold 7) still triggers a buy. -/
theorem C6_atr_threshold_counterexample :
    calculate_threshold .atr 7 (some [5]) (some [5]) (some [5]) (some [5])
        .close 20 2 100 (fun _ => 0) = .ok 0 ∧
    calculate_threshold_signal 103 100 .atr 7 1 .close 20 2
        (some [5]) (some [5]) (some [5]) (some [5]) (fun _ => 0)
      = .ok ⟨.buy, 1⟩ ∧
    (Except.ok (0 : ℚ) : Except Err ℚ) ≠ .ok 7 := by
  refine ⟨?_, ?_, by simp⟩
  · simp only [calculate_threshold, calculate_atr]
    norm_num
  · simp [calculate_threshold_signal, calculate_threshold, calculate_atr]
    norm_num

/-- Witness for C6 (amended): at equal-length series `[1,2,3]`, window 3,
`min_history_length 2`, `threshold_value 2`, the code's ATR threshold equals
`2 · mean [1, 1] = 2`. -/
theorem C6_atr_threshold_witness :
    calculate_threshold .atr 2 (some [1, 2, 3]) (some [1, 2, 3])
        (some [1, 2, 3]) (some [1, 2, 3]) .close 3 2 100 (fun _ => 0)
      = .ok (2 * listMean (atr_tr_list_spec (lastWindow [1, 2, 3] 3)
          (lastWindow [1, 2, 3] 3) (lastWindow [1, 2, 3] 3))) ∧
    (2 : ℚ) * listMean (atr_tr_list_spec (lastWindow [1, 2, 3] 3)
        (lastWindow [1, 2, 3] 3) (lastWindow [1, 2, 3] 3)) = 2 :=
  ⟨((C6_atr_threshold (some [1, 2, 3]) (some [1, 2, 3]) (some [1, 2, 3])
      (some [1, 2, 3]) 2 100 .close 3 2 (fun _ => 0)).1
      [1, 2, 3] [1, 2, 3] [1, 2, 3] [1, 2, 3] rfl rfl rfl rfl rfl rfl).1
      (by norm_num),
   by norm_num [atr_tr_list_spec, lastWindow, listMean, List.range', List.getD]⟩

/-- With `threshold_value = 0`, every non-raising branch of
`_calculate_threshold` yields threshold 0 (absolute and the legacy default
return 0 itself; percentage is `price·0/100`; std-dev and ATR multiply by
0). -/
theorem calculate_threshold_zero (tt : ThresholdType)
    (openH highH lowH closeH : Option (List ℚ)) (which : WhichHistory)
    (w minLen : ℕ) (price : ℚ) (sqrtFn : ℚ → ℚ) (t : ℚ)
    (ht : calculate_threshold tt 0 openH highH lowH closeH which w minLen
      price sqrtFn = .ok t) : t = 0 := by
  cases tt with
  | absolute =>
    simp only [calculate_threshold, Except.ok.injEq] at ht
    exact ht.symm
  | percentage =>
    simp only [calculate_threshold, Except.ok.injEq] at ht
    rw [← ht]; norm_num
  | stdDev =>
    simp only [calculate_threshold] at ht
    cases hsel : get_history_array openH highH lowH closeH which with
    | none =>
      rw [hsel] at ht
      simp only [Except.ok.injEq] at ht
      exact ht.symm
    | some arr =>
      rw [hsel] at ht
      dsimp only at ht
      split at ht <;> simp only [Except.ok.injEq] at ht
      · exact ht.symm
      · rw [← ht]; ring
  | atr =>
    simp only [calculate_threshold] at ht
    match openH, highH, lowH, closeH, ht with
    | some o, some h, some l, some c, ht =>
      dsimp only at ht
      cases ha : calculate_atr o h l c w minLen with
      | error e => rw [ha] at ht; exact absurd ht (by simp)
      | ok a =>
        rw [ha] at ht
        simp only [Except.ok.injEq] at ht
        rw [← ht]; ring
    | none, _, _, _, ht => simp only [Except.ok.injEq] at ht; exact ht.symm
    | some _, none, _, _, ht => simp only [Except.ok.injEq] at ht; exact ht.symm
    | some _, some _, none, _, ht =>
      simp only [Except.ok.injEq] at ht; exact ht.symm
    | some _, some _, some _, none, ht =>
      simp only [Except.ok.injEq] at ht; exact ht.symm
  | ret =>
    simp only [calculate_threshold, Except.ok.injEq] at ht
    exact ht.symm

/-- C7: for every threshold request with `threshold_value = 0` that returns
a signal, a positive forecast-minus-price difference yields a buy of
`execution_size` and a negative difference yields a sell of
`execution_size`; hold never fires on a nonzero difference. -/
theorem C7_zero_threshold_sign_trigger (f c es : ℚ) (tt : ThresholdType)
    (which : WhichHistory) (w minLen : ℕ)
    (oh hh lh ch : Option (List ℚ)) (sqrtFn : ℚ → ℚ) (s : Signal)
    (hr : calculate_threshold_signal f c tt 0 es which w minLen oh hh lh ch
      sqrtFn = .ok s) :
    (0 < f - c → s = ⟨.buy, es⟩) ∧ (f - c < 0 → s = ⟨.sell, es⟩) := by
  unfold calculate_threshold_signal at hr
  rw [if_neg (lt_irrefl 0)] at hr
  split at hr
  · exact absurd hr (by simp)
  simp only at hr
  generalize hq : (if tt = ThresholdType.atr ∧
      (oh = none ∨ hh = none ∨ lh = none ∨ ch = none) then
      ThresholdType.absolute else tt) = tt' at hr
  cases hth : calculate_threshold tt' 0 oh hh lh ch which w minLen c sqrtFn with
  | error e => rw [hth] at hr; exact absurd hr (by simp)
  | ok t =>
    rw [hth] at hr
    have ht0 : t = 0 :=
      calculate_threshold_zero tt' oh hh lh ch which w minLen c sqrtFn t hth
    subst ht0
    dsimp only at hr
    rw [if_neg (not_lt.mpr (abs_nonneg _))] at hr
    constructor
    · intro hd
      rw [if_pos hd] at hr
      simp only [Except.ok.injEq] at hr
      exact hr.symm
    · intro hd
      rw [if_neg (by intro h; exact absurd hd (not_lt.mpr (le_of_lt h)))] at hr
      simp only [Except.ok.injEq] at hr
      exact hr.symm

/-- Witness for C7: absolute threshold 0, forecast 105 vs price 100,
`execution_size = 100` — an executed buy of 100 (spec example scenario 1). -/
theorem C7_zero_threshold_sign_trigger_witness :
    calculate_threshold_signal 105 100 .absolute 0 100 .close 20 2
        none none none none (fun _ => 0) = .ok ⟨.buy, 100⟩ ∧
    (⟨Action.buy, (100 : ℚ)⟩ : Signal) = ⟨.buy, 100⟩ :=
  ⟨by simp [calculate_threshold_signal, calculate_threshold]; norm_num,
   (C7_zero_threshold_sign_trigger 105 100 100 .absolute .close 20 2
      none none none none (fun _ => 0) ⟨.buy, 100⟩
      (by simp [calculate_threshold_signal, calculate_threshold]; norm_num)).1
      (by norm_num)⟩

/-- C8: the return strategy's action is determined by
`expected_return = (forecast - price) / price` against the symmetric band
`±threshold_value` (buy above, sell below, hold with size 0 inside), and
with proportional sizing and no min/max constraints the returned size is
`execution_size · |expected_return| · 100`. -/
theorem C8_return_signal (f c tv es : ℚ) (sizing : PositionSizing)
    (maxP minP : Option ℚ) (which : WhichHistory) (w minLen : ℕ)
    (oh hh lh ch : Option (List ℚ)) (sqrtFn : ℚ → ℚ) (s : Signal)
    (hr : calculate_return_signal f c sizing tv es maxP minP which w minLen
      oh hh lh ch sqrtFn = .ok s) :
    (tv < (f - c) / c → s.action = .buy) ∧
    ((f - c) / c < -tv → s.action = .sell) ∧
    ((f - c) / c ≤ tv → -tv ≤ (f - c) / c → s = ⟨.hold, 0⟩) ∧
    (sizing = .proportional → maxP = none → minP = none →
      (tv < (f - c) / c ∨ (f - c) / c < -tv) →
      s.size = es * |(f - c) / c| * 100) := by
  unfold calculate_return_signal at hr
  split at hr
  · exact absurd hr (by simp)
  split at hr
  · exact absurd hr (by simp)
  split at hr
  · exact absurd hr (by simp)
  simp only at hr
  by_cases h1 : tv < (f - c) / c
  · rw [if_pos h1] at hr
    simp only [Except.ok.injEq] at hr
    subst hr
    refine ⟨fun _ => rfl, fun h2 => absurd h1 (not_lt.mpr (by linarith)), ?_, ?_⟩
    · intro h2 _; exact absurd h1 (not_lt.mpr h2)
    · rintro rfl rfl rfl -
      simp [apply_constraints, return_position_size]
  · rw [if_neg h1] at hr
    by_cases h2 : (f - c) / c < -tv
    · rw [if_pos h2] at hr
      simp only [Except.ok.injEq] at hr
      subst hr
      refine ⟨fun h => absurd h h1, fun _ => rfl, ?_, ?_⟩
      · intro _ h3; exact absurd h2 (not_lt.mpr h3)
      · rintro rfl rfl rfl -
        simp [apply_constraints, return_position_size]
    · rw [if_neg h2] at hr
      simp only [Except.ok.injEq] at hr
      subst hr
      refine ⟨fun h => absurd h h1, fun h => absurd h h2, fun _ _ => rfl, ?_⟩
      rintro rfl rfl rfl (h | h)
      · exact absurd h h1
      · exact absurd h h2

/-- Witness for C8: the spec's example scenario 2 — forecast 110, price 100,
threshold 0.05, proportional sizing, execution size 10 — a buy of size
`10 · 0.10 · 100 = 100`. -/
theorem C8_return_signal_witness :
    calculate_return_signal 110 100 .proportional (1/20) 10 none none .close
        20 2 none none none none (fun _ => 0) = .ok ⟨.buy, 100⟩ ∧
    (⟨Action.buy, (100 : ℚ)⟩ : Signal).action = .buy ∧
    (⟨Action.buy, (100 : ℚ)⟩ : Signal).size = 10 * |((110 : ℚ) - 100) / 100| * 100 := by
  have hr : calculate_return_signal 110 100 .proportional (1/20) 10 none none
      .close 20 2 none none none none (fun _ => 0) = .ok ⟨.buy, 100⟩ := by
    simp only [calculate_return_signal, badConstraints, apply_constraints,
      return_position_size]
    norm_num
    rw [abs_of_pos (by norm_num : (0:ℚ) < 1 / 10)]
    norm_num
  have h := C8_return_signal 110 100 (1/20) 10 .proportional none none .close
    20 2 none none none none (fun _ => 0) ⟨.buy, 100⟩ hr
  exact ⟨hr, h.1 (by norm_num), h.2.2.2 rfl rfl rfl (Or.inl (by norm_num))⟩

end Sapheneia
